import Mathlib

/-!
Shallow embedding of the `grid` crate's core data model:
the dense `GridBuf` backend, the `View` sub-rectangle type,
whole-grid iteration (`GridIter`), and the row bulk operations
(`Row::fill`, `Row::clone_from`, `Row::copy_from`).

Rust `usize` values are modelled as `Nat`; the `checked_mul` /
`checked_add` operations keep the 64-bit bound explicit, since the crate
relies on them to reject overflowing index arithmetic.  Fallible or
panicking code paths return `Option` (with `none` standing for a panic in
constructors and `expect`-style helpers, as noted at each definition).
-/

namespace GridCrate

/-- One more than `usize::MAX`: a `usize` value is a `Nat` below `USIZE`. -/
def USIZE : Nat := 2 ^ 64

/-- Rust `usize::checked_mul`: `some (a * b)` unless the product overflows. -/
def checkedMul (a b : Nat) : Option Nat :=
  if a * b < USIZE then some (a * b) else none

/-- Rust `usize::checked_add`: `some (a + b)` unless the sum overflows. -/
def checkedAdd (a b : Nat) : Option Nat :=
  if a + b < USIZE then some (a + b) else none

/-- `GridBuf<T, S>` from `src/grid_buf.rs`: a dense row-major grid over a
linear store.  The `S` storage parameter is modelled as a `List T`. -/
structure GridBuf (T : Type) : Type where
  width : Nat
  height : Nat
  store : List T
deriving Repr, DecidableEq

/-- The invariant `GridBuf::with_store` asserts at construction:
`width.checked_mul(height) == Some(store.len())`. -/
def GridBuf.WF (g : GridBuf T) : Prop :=
  checkedMul g.width g.height = some g.store.length

instance (g : GridBuf T) : Decidable g.WF := by
  unfold GridBuf.WF; infer_instance

/-- `GridBuf::with_store` (src/grid_buf.rs:27-38).  The source panics when
the `assert_eq!` fails; the panic is modelled as `none`. -/
def GridBuf.withStore (width height : Nat) (store : List T) : Option (GridBuf T) :=
  if checkedMul width height = some store.length then
    some ⟨width, height, store⟩
  else
    none

/-- `GridBuf::get` (src/grid_buf.rs:146-150):
`y.checked_mul(self.width).and_then(|y| y.checked_add(x)).and_then(|i| self.as_slice().get(i))`.
Note that `x` is never compared against `width` on its own. -/
def GridBuf.get (g : GridBuf T) (x y : Nat) : Option T :=
  (checkedMul y g.width).bind fun p =>
    (checkedAdd p x).bind fun i =>
      g.store[i]?

/-- The index into the store that `GridBuf::get_mut` (src/grid_buf.rs:174-178)
hands out a mutable reference to, when it returns `Some`. -/
def GridBuf.getMutIndex (g : GridBuf T) (x y : Nat) : Option Nat :=
  (checkedMul y g.width).bind fun p =>
    (checkedAdd p x).bind fun i =>
      if i < g.store.length then some i else none

/-- `GridMut::set` (src/grid_mut.rs:36-39) for `GridBuf`:
`self.get_mut(x, y).map(|curr| std::mem::replace(curr, value))`.
Returns the updated grid together with the replaced value. -/
def GridBuf.set (g : GridBuf T) (x y : Nat) (v : T) : GridBuf T × Option T :=
  match g.getMutIndex x y with
  | none => (g, none)
  | some i => ({ g with store := g.store.set i v }, g.store[i]?)

/-- The `Grid` capability trait (src/grid.rs): size queries plus the
checked element read.  `GridBuf` and `View` implement it. -/
class Grid (G : Type u) (T : outParam (Type v)) : Type (max u v) where
  width : G → Nat
  height : G → Nat
  get : G → Nat → Nat → Option T

instance : Grid (GridBuf T) T where
  width := GridBuf.width
  height := GridBuf.height
  get := GridBuf.get

/-- `View<GridRef>` (src/view.rs:3-9): a rectangular window into a root
grid, holding the root plus a flat offset `(x, y)` and size `(w, h)`. -/
structure View (G : Type u) : Type u where
  grid : G
  x : Nat
  y : Nat
  w : Nat
  h : Nat
deriving Repr, DecidableEq

/-- `View::get` (src/view.rs:64-70): check the local coordinate against the
view's own size, then delegate to the root at the offset coordinate. -/
def View.get [Grid G T] (v : View G) (x y : Nat) : Option T :=
  if x < v.w ∧ y < v.h then
    Grid.get v.grid (v.x + x) (v.y + y)
  else
    none

instance [Grid G T] : Grid (View G) T where
  width v := v.w
  height v := v.h
  get := View.get

/-- `Grid::try_view` (src/grid.rs:223-231) instantiated at a root grid
(`root_x() = root_y() = 0`, `root() = self`), as used by `GridBuf`. -/
def GridBuf.tryView (g : GridBuf T) (x y w h : Nat) : Option (View (GridBuf T)) :=
  if x + w ≤ g.width ∧ y + h ≤ g.height then
    some ⟨g, x, y, w, h⟩
  else
    none

/-- `Grid::view` (src/grid.rs:236-239): `self.try_view(..).expect(..)`.
The panic of `expect` is modelled as `Except.error`. -/
def GridBuf.view (g : GridBuf T) (x y w h : Nat) : Except Unit (View (GridBuf T)) :=
  match g.tryView x y w h with
  | some v => .ok v
  | none => .error ()

/-- `GridMut::try_view_mut` (src/grid_mut.rs:59-73) instantiated at a root
grid: same containment test and the same flat offsets as `try_view`. -/
def GridBuf.tryViewMut (g : GridBuf T) (x y w h : Nat) : Option (View (GridBuf T)) :=
  if x + w ≤ g.width ∧ y + h ≤ g.height then
    some ⟨g, x, y, w, h⟩
  else
    none

/-- `GridMut::view_mut` (src/grid_mut.rs:78-81), panic modelled as error. -/
def GridBuf.viewMut (g : GridBuf T) (x y w h : Nat) : Except Unit (View (GridBuf T)) :=
  match g.tryViewMut x y w h with
  | some v => .ok v
  | none => .error ()

/-- `View::try_view` (src/view.rs:89-101): validate against the view's own
size, then build a view over the *same root* with offsets added. -/
def View.tryView (v : View G) (x y w h : Nat) : Option (View G) :=
  if x + w ≤ v.w ∧ y + h ≤ v.h then
    some ⟨v.grid, v.x + x, v.y + y, w, h⟩
  else
    none

/-- `View::try_view_mut` (src/view.rs:206-224): identical logic. -/
def View.tryViewMut (v : View G) (x y w h : Nat) : Option (View G) :=
  if x + w ≤ v.w ∧ y + h ≤ v.h then
    some ⟨v.grid, v.x + x, v.y + y, w, h⟩
  else
    none

/-- A sub-view request rectangle. -/
structure Rect : Type where
  x : Nat
  y : Nat
  w : Nat
  h : Nat
deriving Repr, DecidableEq

/-- Repeated sub-viewing: apply `View::try_view` once per rectangle. -/
def viewChain (v : View G) : List Rect → Option (View G)
  | [] => some v
  | r :: rs =>
    match v.tryView r.x r.y r.w r.h with
    | none => none
    | some v2 => viewChain v2 rs

/-- The cursor of `GridIter` (src/grid_iter.rs:6-10); the grid reference is
passed separately to each operation. -/
structure GridIter : Type where
  x : Nat
  y : Nat
deriving Repr, DecidableEq

/-- `GridIter::next` (src/grid_iter.rs:23-33) over a `GridBuf`: read the
current cell via `get`, then advance `x`, wrapping to the next row when
`x` reaches `width()`. -/
def GridIter.next (g : GridBuf T) (it : GridIter) : Option ((T × Nat × Nat) × GridIter) :=
  match g.get it.x it.y with
  | none => none
  | some val =>
    let x := it.x
    let y := it.y
    let it2 : GridIter := if x + 1 = g.width then ⟨0, y + 1⟩ else ⟨x + 1, y⟩
    some ((val, x, y), it2)

/-- `GridIter::len` (src/grid_iter.rs:52-56):
`(h.saturating_sub(self.y + 1)) * w + (w - self.x)` (saturating subtraction
is `Nat` subtraction). -/
def GridIter.len (g : GridBuf T) (it : GridIter) : Nat :=
  (g.height - (it.y + 1)) * g.width + (g.width - it.x)

/-- `GridIter::size_hint` (src/grid_iter.rs:36-39): `(len, Some(len))`. -/
def GridIter.sizeHint (g : GridBuf T) (it : GridIter) : Nat × Option Nat :=
  (it.len g, some (it.len g))

/-- Run the iterator, collecting the yielded `(value, x, y)` triples.  The
fuel argument only bounds the number of steps taken; `iterList` below
supplies more fuel than the iterator can ever consume. -/
def GridIter.toList (g : GridBuf T) : Nat → GridIter → List (T × Nat × Nat)
  | 0, _ => []
  | fuel + 1, it =>
    match GridIter.next g it with
    | none => []
    | some (e, it2) => e :: GridIter.toList g fuel it2

/-- `Grid::iter` (src/grid.rs:298-303) over a `GridBuf`, run to exhaustion:
the iterator starts at `(0, 0)`. -/
def GridBuf.iterList (g : GridBuf T) : List (T × Nat × Nat) :=
  GridIter.toList g (g.width * g.height + 1) ⟨0, 0⟩

/-- All in-bounds positions of a `w × h` grid in row-major order:
`y` outer (slowest), `x` inner (fastest). -/
def rowMajorPositions (w h : Nat) : List (Nat × Nat) :=
  (List.range h).flatMap fun y => (List.range w).map fun x => (x, y)

/-- Rust `slice.get(a..b)` / `get_mut(a..b)` on a slice of length `len`:
`Some` exactly when `a <= b && b <= len`.  The resulting sub-slice is
represented by its start and length into the underlying buffer. -/
def sliceRange? (len a b : Nat) : Option (Nat × Nat) :=
  if a ≤ b ∧ b ≤ len then some (a, b - a) else none

/-- The elements of the sub-slice `(s, n)` of a buffer. -/
def listExtract (l : List T) (s n : Nat) : List T :=
  (l.drop s).take n

/-- Overwrite the sub-slice starting at `s` with `vals`
(Rust `slice::fill`, `copy_from_slice`, `clone_from_slice` write-back). -/
def listWriteRange (l : List T) (s : Nat) (vals : List T) : List T :=
  l.take s ++ vals ++ l.drop (s + vals.length)

/-- `GridBuf::row_slice_mut` (src/grid_buf.rs:187-191), as the sub-slice
`(start, length)` it hands out:
`y.checked_mul(w).and_then(|i| self.as_mut_slice().get_mut(i..(i + w)))`.
`row_slice` (src/grid_buf.rs:159-162) has the same index logic. -/
def GridBuf.rowSliceRange (g : GridBuf T) (y : Nat) : Option (Nat × Nat) :=
  (checkedMul y g.width).bind fun i =>
    sliceRange? g.store.length i (i + g.width)

/-- `GridBuf::row_slice` as the extracted row elements. -/
def GridBuf.rowSlice (g : GridBuf T) (y : Nat) : Option (List T) :=
  (g.rowSliceRange y).map fun p => listExtract g.store p.1 p.2

/-- `View::row_slice_mut` (src/view.rs:195-203) for a view over a `GridBuf`:
take the root's row slice, then re-slice it to `self.x..(self.x + self.w)`;
the result is again a `(start, length)` window into the root store. -/
def View.rowSliceRange (v : View (GridBuf T)) (y : Nat) : Option (Nat × Nat) :=
  if y < v.h then
    (v.grid.rowSliceRange (v.y + y)).bind fun p =>
      (sliceRange? p.2 v.x (v.x + v.w)).map fun q => (p.1 + q.1, q.2)
  else
    none

/-- `GridBuf::get_mut(x, y).unwrap() = val`: write through the checked
mutable reference; `none` models the `unwrap` panic. -/
def GridBuf.writeCell? (g : GridBuf T) (x y : Nat) (v : T) : Option (GridBuf T) :=
  (g.getMutIndex x y).map fun i => { g with store := g.store.set i v }

/-- `View::get_mut` (src/view.rs:181-187) composed with an assignment. -/
def View.writeCell? (v : View (GridBuf T)) (x y : Nat) (val : T) : Option (View (GridBuf T)) :=
  if x < v.w ∧ y < v.h then
    (v.grid.writeCell? (v.x + x) (v.y + y) val).map fun g => { v with grid := g }
  else
    none

/-- `GridMut::set` (src/grid_mut.rs:36-39) for a view over a `GridBuf`:
`View::get_mut` checks the local coordinate, then delegates to the root. -/
def View.set (v : View (GridBuf T)) (x y : Nat) (val : T) : View (GridBuf T) × Option T :=
  if x < v.w ∧ y < v.h then
    let r := v.grid.set (v.x + x) (v.y + y) val
    ({ v with grid := r.1 }, r.2)
  else
    (v, none)

/-- `Row::fill` (src/row.rs:241-256) for the row `y` of a view over a
`GridBuf`: nothing on an empty row; `slice.fill(value)` through
`row_slice_mut` when available; otherwise cells `1..len` then cell `0`
element-wise (`none` models an `unwrap` panic in the fallback). -/
def View.rowFill (v : View (GridBuf T)) (y : Nat) (val : T) : Option (View (GridBuf T)) :=
  if v.w = 0 then some v
  else
    match View.rowSliceRange v y with
    | some (s, n) =>
      some { v with grid := { v.grid with store := listWriteRange v.grid.store s (List.replicate n val) } }
    | none =>
      ((List.range' 1 (v.w - 1)).foldlM (fun vv x => View.writeCell? vv x y val) v).bind
        fun vv => View.writeCell? vv 0 y val

/-- `GridMut::fill` (src/grid_mut.rs:147-159) for a view over a `GridBuf`:
take the first row from `rows_mut()`, fill the remaining rows `1..h`,
then fill the first row. -/
def View.fill (v : View (GridBuf T)) (val : T) : Option (View (GridBuf T)) :=
  if v.h = 0 then some v
  else
    ((List.range' 1 (v.h - 1)).foldlM (fun vv y => View.rowFill vv y val) v).bind
      fun vv => View.rowFill vv 0 val

/-- `Row::clone_from` / `Row::copy_from` are generic over the backends of
the two rows and branch on whether each backend exposes a contiguous row
slice.  `ToggleGrid` instantiates that generic parameter: a dense-backed
grid whose `row_slice` exposure is switched by `slicey`, so that every one
of the four branches of the source functions is realized by some value. -/
structure ToggleGrid (T : Type) : Type where
  buf : GridBuf T
  slicey : Bool
deriving Repr, DecidableEq

/-- Checked read (`Grid::get`), independent of slice exposure. -/
def ToggleGrid.get (g : ToggleGrid T) (x y : Nat) : Option T :=
  g.buf.get x y

/-- `Grid::row_slice`: available only when the backend exposes slices. -/
def ToggleGrid.rowSlice (g : ToggleGrid T) (y : Nat) : Option (List T) :=
  if g.slicey then g.buf.rowSlice y else none

/-- `GridMut::row_slice_mut`, as a `(start, length)` window. -/
def ToggleGrid.rowSliceRange (g : ToggleGrid T) (y : Nat) : Option (Nat × Nat) :=
  if g.slicey then g.buf.rowSliceRange y else none

/-- `get_mut(x, y).unwrap() = val` on a `ToggleGrid`. -/
def ToggleGrid.writeCell? (g : ToggleGrid T) (x y : Nat) (v : T) : Option (ToggleGrid T) :=
  (g.buf.writeCell? x y v).map fun b => { g with buf := b }

/-- `Row::clone_from` (src/row.rs:259-286), destination row `y1` of `dst`,
source row `y2` of `src`.  The `assert_eq!(self.len(), row.len())` panic,
the slice-index panics and the `unwrap` panics are all modelled as `none`. -/
def rowCloneFrom (dst : ToggleGrid T) (y1 : Nat) (src : ToggleGrid T) (y2 : Nat) :
    Option (ToggleGrid T) :=
  if dst.buf.width = src.buf.width then
    match dst.rowSliceRange y1, src.rowSlice y2 with
    | some (s, n), some srcL =>
      -- dst.clone_from_slice(src): panics unless the lengths match
      if srcL.length = n then
        some { dst with buf := { dst.buf with store := listWriteRange dst.buf.store s srcL } }
      else none
    | some (s, n), none =>
      -- for x in 0..row.len() { dst[x] = row.get(x).unwrap().clone(); }
      (List.range src.buf.width).foldlM (fun d x =>
        match src.get x y2 with
        | none => none
        | some val =>
          if x < n then
            some { d with buf := { d.buf with store := d.buf.store.set (s + x) val } }
          else none) dst
    | none, some srcL =>
      -- for x in 0..row.len() { *self.get_mut(x).unwrap() = src[x].clone(); }
      (List.range src.buf.width).foldlM (fun d x =>
        match srcL[x]? with
        | none => none
        | some val => d.writeCell? x y1 val) dst
    | none, none =>
      -- for i in 0..self.len() { *self.get_mut(i).unwrap() = row.get(i).unwrap().clone(); }
      (List.range dst.buf.width).foldlM (fun d i =>
        match src.get i y2 with
        | none => none
        | some val => d.writeCell? i y1 val) dst
  else none

/-- `Row::copy_from` (src/row.rs:289-316): same structure as `clone_from`
with `Copy` semantics, which coincide in the model. -/
def rowCopyFrom (dst : ToggleGrid T) (y1 : Nat) (src : ToggleGrid T) (y2 : Nat) :
    Option (ToggleGrid T) :=
  if dst.buf.width = src.buf.width then
    match dst.rowSliceRange y1, src.rowSlice y2 with
    | some (s, n), some srcL =>
      if srcL.length = n then
        some { dst with buf := { dst.buf with store := listWriteRange dst.buf.store s srcL } }
      else none
    | some (s, n), none =>
      (List.range src.buf.width).foldlM (fun d x =>
        match src.get x y2 with
        | none => none
        | some val =>
          if x < n then
            some { d with buf := { d.buf with store := d.buf.store.set (s + x) val } }
          else none) dst
    | none, some srcL =>
      (List.range src.buf.width).foldlM (fun d x =>
        match srcL[x]? with
        | none => none
        | some val => d.writeCell? x y1 val) dst
    | none, none =>
      (List.range dst.buf.width).foldlM (fun d i =>
        match src.get i y2 with
        | none => none
        | some val => d.writeCell? i y1 val) dst
  else none

/-- The element-wise specification both bulk row operations must refine:
destination row `y1` becomes source row `y2`, every other cell unchanged.
This definition follows the specification text, for comparison with the
branching source functions above. -/
def rowCopyModel (dst : GridBuf T) (y1 : Nat) (src : GridBuf T) (y2 : Nat) : GridBuf T :=
  { dst with
    store := listWriteRange dst.store (y1 * dst.width)
      (listExtract src.store (y2 * src.width) src.width) }

/-! ## Basic characterizations -/

theorem withStore_eq (w h : Nat) (s : List T) :
    GridBuf.withStore w h s =
      if w * h < USIZE ∧ s.length = w * h then some ⟨w, h, s⟩ else none := by
  unfold GridBuf.withStore checkedMul
  by_cases hm : w * h < USIZE
  · by_cases he : s.length = w * h
    · simp [hm, he]
    · simp [hm, he]
      omega
  · simp [hm]

theorem GridBuf.WF_iff (g : GridBuf T) :
    g.WF ↔ g.width * g.height < USIZE ∧ g.store.length = g.width * g.height := by
  unfold GridBuf.WF checkedMul
  by_cases hm : g.width * g.height < USIZE
  · simp [hm]
    omega
  · simp [hm]

theorem GridBuf.get_eq (g : GridBuf T) (x y : Nat) :
    g.get x y = if y * g.width + x < USIZE then g.store[y * g.width + x]? else none := by
  unfold GridBuf.get checkedMul checkedAdd
  by_cases h1 : y * g.width < USIZE
  · by_cases h2 : y * g.width + x < USIZE
    · simp [h1, h2]
    · simp [h1, h2]
  · have h2 : ¬ y * g.width + x < USIZE := by omega
    simp [h1, h2]

theorem GridBuf.getMutIndex_eq (g : GridBuf T) (x y : Nat) :
    g.getMutIndex x y =
      if y * g.width + x < USIZE ∧ y * g.width + x < g.store.length then
        some (y * g.width + x)
      else none := by
  unfold GridBuf.getMutIndex checkedMul checkedAdd
  by_cases h1 : y * g.width < USIZE
  · by_cases h2 : y * g.width + x < USIZE
    · by_cases h3 : y * g.width + x < g.store.length
      · simp [h1, h2, h3]
      · simp [h1, h2, h3]
    · simp [h1, h2]
  · have h2 : ¬ y * g.width + x < USIZE := by omega
    simp [h1, h2]

theorem GridBuf.index_lt (g : GridBuf T) (hWF : g.WF)
    (hx : x < g.width) (hy : y < g.height) :
    y * g.width + x < g.store.length ∧ y * g.width + x < USIZE := by
  obtain ⟨hu, hl⟩ := (GridBuf.WF_iff g).mp hWF
  have h1 : y * g.width + x < (y + 1) * g.width := by
    rw [Nat.succ_mul]; omega
  have h2 : (y + 1) * g.width ≤ g.height * g.width :=
    Nat.mul_le_mul_right _ hy
  have h3 : y * g.width + x < g.width * g.height := by
    rw [Nat.mul_comm g.width g.height]; omega
  omega

theorem GridBuf.get_inbounds (g : GridBuf T) (hWF : g.WF)
    (hx : x < g.width) (hy : y < g.height) :
    g.get x y = g.store[y * g.width + x]? := by
  obtain ⟨hlen, hus⟩ := GridBuf.index_lt g hWF hx hy
  rw [GridBuf.get_eq, if_pos hus]

/-! ## C5: `with_store` length validation -/

/-- C5: `GridBuf::with_store(width, height, store)` fails (the assert
panics, modelled as `none`) unless `store.len() == width * height`, with a
`width * height` overflow also counted as failure; on success the grid has
exactly the given width and height.  In particular `width = 3, height = 3`
with a store of length 8 fails. -/
theorem C5_withStore_requires_exact_length (T : Type) :
    (∀ (w h : Nat) (s : List T),
      GridBuf.withStore w h s = none ↔ ¬(w * h < USIZE ∧ s.length = w * h))
    ∧ (∀ (w h : Nat) (s : List T) (g : GridBuf T),
      GridBuf.withStore w h s = some g → g.width = w ∧ g.height = h ∧ g.store = s)
    ∧ GridBuf.withStore 3 3 (List.range 8) = (none : Option (GridBuf Nat)) := by
  refine ⟨fun w h s => ?_, fun w h s g hg => ?_, by decide⟩
  · rw [withStore_eq]
    by_cases hc : w * h < USIZE ∧ s.length = w * h
    · simp [hc]
    · simp [hc]
  · rw [withStore_eq] at hg
    by_cases hc : w * h < USIZE ∧ s.length = w * h
    · rw [if_pos hc] at hg
      cases hg
      exact ⟨rfl, rfl, rfl⟩
    · rw [if_neg hc] at hg
      cases hg

/-- Witness for C5: a successful construction at a concrete input. -/
theorem C5_witness :
    GridBuf.withStore 2 2 [10, 11, 12, 13] = some (⟨2, 2, [10, 11, 12, 13]⟩ : GridBuf Nat)
    ∧ (⟨2, 2, [10, 11, 12, 13]⟩ : GridBuf Nat).width = 2
    ∧ (⟨2, 2, [10, 11, 12, 13]⟩ : GridBuf Nat).height = 2 := by
  refine ⟨by decide, ?_, ?_⟩
  · exact ((C5_withStore_requires_exact_length Nat).2.1 2 2 [10, 11, 12, 13] _ (by decide)).1
  · exact ((C5_withStore_requires_exact_length Nat).2.1 2 2 [10, 11, 12, 13] _ (by decide)).2.1

/-! ## C4: `try_view` / `view` bounds condition -/

/-- C4: `try_view(x, y, w, h)` returns `None` exactly when
`x + w > width()` or `y + h > height()`, `view` panics in exactly the same
condition and otherwise returns the same view; likewise for
`try_view_mut` / `view_mut`, both on a root `GridBuf` and on a `View`. -/
theorem C4_view_bounds_condition (T : Type) :
    (∀ (g : GridBuf T) (x y w h : Nat),
      (g.tryView x y w h = none ↔ x + w > g.width ∨ y + h > g.height)
      ∧ (g.view x y w h = Except.error () ↔ x + w > g.width ∨ y + h > g.height)
      ∧ (∀ v, g.tryView x y w h = some v → g.view x y w h = Except.ok v)
      ∧ (g.tryViewMut x y w h = none ↔ x + w > g.width ∨ y + h > g.height)
      ∧ (g.viewMut x y w h = Except.error () ↔ x + w > g.width ∨ y + h > g.height)
      ∧ (∀ v, g.tryViewMut x y w h = some v → g.viewMut x y w h = Except.ok v)
      ∧ g.tryView x y w h = g.tryViewMut x y w h)
    ∧ (∀ (vv : View (GridBuf T)) (x y w h : Nat),
      (vv.tryView x y w h = none ↔ x + w > vv.w ∨ y + h > vv.h)
      ∧ (vv.tryViewMut x y w h = none ↔ x + w > vv.w ∨ y + h > vv.h)) := by
  constructor
  · intro g x y w h
    by_cases hc : x + w ≤ g.width ∧ y + h ≤ g.height
    · have ht : g.tryView x y w h = some ⟨g, x, y, w, h⟩ := by
        unfold GridBuf.tryView; rw [if_pos hc]
      have htm : g.tryViewMut x y w h = some ⟨g, x, y, w, h⟩ := by
        unfold GridBuf.tryViewMut; rw [if_pos hc]
      have hv : g.view x y w h = Except.ok ⟨g, x, y, w, h⟩ := by
        unfold GridBuf.view; rw [ht]
      have hvm : g.viewMut x y w h = Except.ok ⟨g, x, y, w, h⟩ := by
        unfold GridBuf.viewMut; rw [htm]
      refine ⟨?_, ?_, ?_, ?_, ?_, ?_, ?_⟩
      · rw [ht]; simp; omega
      · rw [hv]
        constructor
        · intro hcon; cases hcon
        · intro hd; omega
      · intro v hsome
        rw [ht] at hsome; cases hsome; exact hv
      · rw [htm]; simp; omega
      · rw [hvm]
        constructor
        · intro hcon; cases hcon
        · intro hd; omega
      · intro v hsome
        rw [htm] at hsome; cases hsome; exact hvm
      · rw [ht, htm]
    · have ht : g.tryView x y w h = none := by
        unfold GridBuf.tryView; rw [if_neg hc]
      have htm : g.tryViewMut x y w h = none := by
        unfold GridBuf.tryViewMut; rw [if_neg hc]
      have hv : g.view x y w h = Except.error () := by
        unfold GridBuf.view; rw [ht]
      have hvm : g.viewMut x y w h = Except.error () := by
        unfold GridBuf.viewMut; rw [htm]
      refine ⟨?_, ?_, ?_, ?_, ?_, ?_, ?_⟩
      · rw [ht]; simp; omega
      · rw [hv]; simp; omega
      · intro v hsome
        rw [ht] at hsome; cases hsome
      · rw [htm]; simp; omega
      · rw [hvm]; simp; omega
      · intro v hsome
        rw [htm] at hsome; cases hsome
      · rw [ht, htm]
  · intro vv x y w h
    unfold View.tryView View.tryViewMut
    by_cases hc : x + w ≤ vv.w ∧ y + h ≤ vv.h
    · rw [if_pos hc]
      constructor
      · simp; omega
      · simp; omega
    · rw [if_neg hc]
      constructor
      · simp; omega
      · simp; omega

/-- Witness for C4: concrete in-bounds and out-of-bounds requests. -/
theorem C4_witness :
    GridBuf.view (⟨2, 2, [10, 11, 12, 13]⟩ : GridBuf Nat) 0 1 2 1 =
      Except.ok ⟨⟨2, 2, [10, 11, 12, 13]⟩, 0, 1, 2, 1⟩
    ∧ GridBuf.tryView (⟨2, 2, [10, 11, 12, 13]⟩ : GridBuf Nat) 1 1 2 1 = none := by
  constructor
  · exact ((C4_view_bounds_condition Nat).1 ⟨2, 2, [10, 11, 12, 13]⟩ 0 1 2 1).2.2.1 _ rfl
  · exact ((C4_view_bounds_condition Nat).1 ⟨2, 2, [10, 11, 12, 13]⟩ 1 1 2 1).1.mpr (by decide)

/-! ## C2: nested views compose offsets additively -/

theorem viewChain_spec {G : Type u} (rs : List Rect) :
    ∀ (v v2 : View G), viewChain v rs = some v2 →
      v2.grid = v.grid
      ∧ v2.x = v.x + (rs.map Rect.x).sum
      ∧ v2.y = v.y + (rs.map Rect.y).sum := by
  induction rs with
  | nil =>
    intro v v2 hch
    unfold viewChain at hch
    cases hch
    simp
  | cons r rs ih =>
    intro v v2 hch
    unfold viewChain at hch
    revert hch
    cases htv : v.tryView r.x r.y r.w r.h with
    | none => intro hch; cases hch
    | some vmid =>
      intro hch
      obtain ⟨hg, hx, hy⟩ := ih vmid v2 hch
      unfold View.tryView at htv
      by_cases hc : r.x + r.w ≤ v.w ∧ r.y + r.h ≤ v.h
      · rw [if_pos hc] at htv
        cases htv
        refine ⟨hg, ?_, ?_⟩
        · rw [hx]; simp [Nat.add_assoc]
        · rw [hy]; simp [Nat.add_assoc]
      · rw [if_neg hc] at htv
        cases htv

/-- C2: a view built by `view(x, y, w, h)` on a root grid, then sub-viewed
any number of times, carries a single flat offset equal to the sum of the
per-level offsets, and `get(i, j)` on it (for `i < w`, `j < h` of the final
view) reads the root at that flat offset plus `(i, j)`. -/
theorem C2_nested_view_get_composes (T : Type) (g : GridBuf T)
    (x0 y0 w0 h0 : Nat) (rs : List Rect) (v0 v : View (GridBuf T))
    (hv0 : g.tryView x0 y0 w0 h0 = some v0)
    (hch : viewChain v0 rs = some v)
    (i j : Nat) (hi : i < v.w) (hj : j < v.h) :
    v.x = x0 + (rs.map Rect.x).sum
    ∧ v.y = y0 + (rs.map Rect.y).sum
    ∧ View.get v i j = g.get (x0 + (rs.map Rect.x).sum + i) (y0 + (rs.map Rect.y).sum + j) := by
  unfold GridBuf.tryView at hv0
  by_cases hc : x0 + w0 ≤ g.width ∧ y0 + h0 ≤ g.height
  · rw [if_pos hc] at hv0
    cases hv0
    obtain ⟨hg, hx, hy⟩ := viewChain_spec rs _ v hch
    refine ⟨hx, hy, ?_⟩
    unfold View.get
    rw [if_pos ⟨hi, hj⟩, hg, hx, hy]
    rfl
  · rw [if_neg hc] at hv0
    cases hv0

/-- Witness for C2: three levels of nesting on a concrete 4x4 grid.
The flat offset of the innermost view is (1+1+0, 1+0+1) = (2, 2), and its
cell (1, 0) is the root cell (3, 2), holding value 2*4+3 = 11. -/
theorem C2_witness :
    GridBuf.tryView (⟨4, 4, List.range 16⟩ : GridBuf Nat) 1 1 3 3 =
      some ⟨⟨4, 4, List.range 16⟩, 1, 1, 3, 3⟩
    ∧ viewChain (⟨⟨4, 4, List.range 16⟩, 1, 1, 3, 3⟩ : View (GridBuf Nat))
        [⟨1, 0, 2, 2⟩, ⟨0, 1, 2, 1⟩] = some ⟨⟨4, 4, List.range 16⟩, 2, 2, 2, 1⟩
    ∧ View.get (⟨⟨4, 4, List.range 16⟩, 2, 2, 2, 1⟩ : View (GridBuf Nat)) 1 0 =
        GridBuf.get ⟨4, 4, List.range 16⟩ (1 + (1 + 0) + 1) (1 + (0 + 1) + 0)
    ∧ View.get (⟨⟨4, 4, List.range 16⟩, 2, 2, 2, 1⟩ : View (GridBuf Nat)) 1 0 = some 11 := by
  refine ⟨by decide, by decide, ?_, by decide⟩
  exact (C2_nested_view_get_composes Nat ⟨4, 4, List.range 16⟩ 1 1 3 3
    [⟨1, 0, 2, 2⟩, ⟨0, 1, 2, 1⟩] ⟨⟨4, 4, List.range 16⟩, 1, 1, 3, 3⟩
    ⟨⟨4, 4, List.range 16⟩, 2, 2, 2, 1⟩ (by decide) (by decide) 1 0
    (by decide) (by decide)).2.2

/-! ## C10: the exact index semantics of `GridBuf::get` / `get_mut` -/

/-- C10: for a `GridBuf` whose store length is `width * height`, `get` and
`get_mut` succeed exactly when the linear index `y * width + x` is
computable without overflow and below `width * height`, and they address
store element `y * width + x`; `x` is never compared against `width` on
its own. -/
theorem C10_gridbuf_linear_index_semantics (T : Type) (g : GridBuf T)
    (hlen : g.store.length = g.width * g.height) (x y : Nat) :
    (g.get x y =
      if y * g.width + x < USIZE ∧ y * g.width + x < g.width * g.height then
        g.store[y * g.width + x]?
      else none)
    ∧ ((g.get x y).isSome ↔
        y * g.width + x < USIZE ∧ y * g.width + x < g.width * g.height)
    ∧ (g.getMutIndex x y =
      if y * g.width + x < USIZE ∧ y * g.width + x < g.width * g.height then
        some (y * g.width + x)
      else none) := by
  have hmut := GridBuf.getMutIndex_eq g x y
  rw [hlen] at hmut
  refine ⟨?_, ?_, hmut⟩
  · rw [GridBuf.get_eq]
    by_cases h1 : y * g.width + x < USIZE
    · by_cases h2 : y * g.width + x < g.width * g.height
      · rw [if_pos h1, if_pos ⟨h1, h2⟩]
      · rw [if_pos h1, if_neg (by tauto)]
        exact List.getElem?_eq_none (by omega)
    · rw [if_neg h1, if_neg (by tauto)]
  · rw [GridBuf.get_eq]
    by_cases h1 : y * g.width + x < USIZE
    · by_cases h2 : y * g.width + x < g.width * g.height
      · rw [if_pos h1]
        have : y * g.width + x < g.store.length := by omega
        simp [List.getElem?_eq_getElem this, h1, h2]
      · rw [if_pos h1]
        have : g.store[y * g.width + x]? = none := List.getElem?_eq_none (by omega)
        simp [this, h2]
    · rw [if_neg h1]
      simp [h1]

/-- Witness for C10: on the 2x2 grid `[10,11,12,13]`, the out-of-range
column `x = 2` of row 0 has linear index 2, which is inside the store, so
`get(2, 0)` yields store element 2 (the cell `(0, 1)`), not `None`. -/
theorem C10_witness :
    GridBuf.get (⟨2, 2, [10, 11, 12, 13]⟩ : GridBuf Nat) 2 0 = some 12
    ∧ 2 ≥ (⟨2, 2, [10, 11, 12, 13]⟩ : GridBuf Nat).width := by
  constructor
  · rw [(C10_gridbuf_linear_index_semantics Nat ⟨2, 2, [10, 11, 12, 13]⟩ (by decide) 2 0).1]
    decide
  · decide

/-! ## C1: checked accessors on out-of-range coordinates -/

/-- C1 (code-bug evidence): the documented contract of `Grid::get` /
`GridMut::set` ("`None` if the provided coordinate is out of bounds", no
write) fails on `GridBuf`: on the 2x2 grid `[10,11,12,13]` the coordinate
`(2, 0)` has `x >= width`, yet `get(2, 0)` returns `Some(&store[2])` and
`set(2, 0, 99)` overwrites store element 2 — the cell `(0, 1)` — and
returns its old value. -/
theorem C1_out_of_range_get_set_bug :
    2 ≥ (⟨2, 2, [10, 11, 12, 13]⟩ : GridBuf Nat).width
    ∧ GridBuf.get (⟨2, 2, [10, 11, 12, 13]⟩ : GridBuf Nat) 2 0 = some 12
    ∧ (GridBuf.set (⟨2, 2, [10, 11, 12, 13]⟩ : GridBuf Nat) 2 0 99).2 = some 12
    ∧ (GridBuf.set (⟨2, 2, [10, 11, 12, 13]⟩ : GridBuf Nat) 2 0 99).1.store =
        [10, 11, 99, 13] := by
  decide

/-! ## C6: `GridIter::len` / `size_hint` -/

/-- C6 (code-bug evidence): `GridIter::len` computes
`(h.saturating_sub(y + 1)) * w + (w - x)`, which is wrong whenever no
elements remain and `w > 0`: a fresh iterator over a 3x0 grid reports
`len = 3` (and `size_hint = (3, Some 3)`) although iteration yields
nothing, and after the single element of a 1x1 grid has been yielded the
cursor is `(0, 1)` and `len` still reports 1. -/
theorem C6_iter_len_bug :
    GridIter.len (⟨3, 0, []⟩ : GridBuf Nat) ⟨0, 0⟩ = 3
    ∧ GridIter.sizeHint (⟨3, 0, []⟩ : GridBuf Nat) ⟨0, 0⟩ = (3, some 3)
    ∧ GridBuf.iterList (⟨3, 0, []⟩ : GridBuf Nat) = []
    ∧ GridIter.next (⟨1, 1, [7]⟩ : GridBuf Nat) ⟨0, 0⟩ = some ((7, 0, 0), ⟨0, 1⟩)
    ∧ GridIter.len (⟨1, 1, [7]⟩ : GridBuf Nat) ⟨0, 1⟩ = 1
    ∧ GridIter.next (⟨1, 1, [7]⟩ : GridBuf Nat) ⟨0, 1⟩ = none := by
  decide

/-! ## C3: read-after-write -/

theorem GridBuf.set_eq (g : GridBuf T) (x y : Nat) (v : T) :
    g.set x y v =
      if y * g.width + x < USIZE ∧ y * g.width + x < g.store.length then
        ({ g with store := g.store.set (y * g.width + x) v },
          g.store[y * g.width + x]?)
      else (g, none) := by
  unfold GridBuf.set
  by_cases hc : y * g.width + x < USIZE ∧ y * g.width + x < g.store.length
  · simp [GridBuf.getMutIndex_eq, hc]
  · simp [GridBuf.getMutIndex_eq, hc]

theorem GridBuf.set_snd (g : GridBuf T) (x y : Nat) (v : T) :
    (g.set x y v).2 = g.get x y := by
  rw [GridBuf.set_eq, GridBuf.get_eq]
  by_cases hc : y * g.width + x < USIZE ∧ y * g.width + x < g.store.length
  · rw [if_pos hc, if_pos hc.1]
  · rw [if_neg hc]
    by_cases h1 : y * g.width + x < USIZE
    · rw [if_pos h1]
      exact (List.getElem?_eq_none (by omega)).symm
    · rw [if_neg h1]

theorem GridBuf.get_isSome (g : GridBuf T) (hWF : g.WF)
    (hx : x < g.width) (hy : y < g.height) : (g.get x y).isSome := by
  obtain ⟨hlt, hus⟩ := GridBuf.index_lt g hWF hx hy
  rw [GridBuf.get_inbounds g hWF hx hy, List.getElem?_eq_getElem hlt]
  rfl

theorem GridBuf.set_dims (g : GridBuf T) (x y : Nat) (v : T) :
    (g.set x y v).1.width = g.width
    ∧ (g.set x y v).1.height = g.height
    ∧ (g.set x y v).1.store.length = g.store.length := by
  rw [GridBuf.set_eq]
  by_cases hc : y * g.width + x < USIZE ∧ y * g.width + x < g.store.length
  · rw [if_pos hc]
    exact ⟨rfl, rfl, by simp⟩
  · rw [if_neg hc]
    exact ⟨rfl, rfl, rfl⟩

theorem GridBuf.set_get_same (g : GridBuf T) (hWF : g.WF)
    (hx : x < g.width) (hy : y < g.height) (v : T) :
    (g.set x y v).1.get x y = some v := by
  obtain ⟨hlt, hus⟩ := GridBuf.index_lt g hWF hx hy
  rw [GridBuf.set_eq, if_pos ⟨hus, hlt⟩]
  show GridBuf.get { g with store := g.store.set (y * g.width + x) v } x y = some v
  rw [GridBuf.get_eq]
  show (if y * g.width + x < USIZE then
    (g.store.set (y * g.width + x) v)[y * g.width + x]? else none) = some v
  rw [if_pos hus]
  exact List.getElem?_set_self hlt

/-- C3: on every in-bounds coordinate, `set(x, y, v)` returns `Some` of the
previously stored value and a subsequent `get(x, y)` returns `Some v` —
both on a root `GridBuf` and through a mutable view of one. -/
theorem C3_read_after_write (T : Type) :
    (∀ (g : GridBuf T) (x y : Nat) (v : T),
      g.WF → x < g.width → y < g.height →
      (g.set x y v).2 = g.get x y
      ∧ (g.get x y).isSome
      ∧ (g.set x y v).1.get x y = some v)
    ∧ (∀ (root : GridBuf T) (vx vy vw vh : Nat) (vv : View (GridBuf T))
        (x y : Nat) (val : T),
      root.WF → root.tryViewMut vx vy vw vh = some vv → x < vv.w → y < vv.h →
      (vv.set x y val).2 = View.get vv x y
      ∧ (View.get vv x y).isSome
      ∧ View.get (vv.set x y val).1 x y = some val) := by
  constructor
  · intro g x y v hWF hx hy
    exact ⟨GridBuf.set_snd g x y v, GridBuf.get_isSome g hWF hx hy,
      GridBuf.set_get_same g hWF hx hy v⟩
  · intro root vx vy vw vh vv x y val hWF htv hx hy
    unfold GridBuf.tryViewMut at htv
    by_cases hc : vx + vw ≤ root.width ∧ vy + vh ≤ root.height
    · rw [if_pos hc] at htv
      cases htv
      have hx1 : x < vw := hx
      have hy1 : y < vh := hy
      have hx2 : vx + x < root.width := by omega
      have hy2 : vy + y < root.height := by omega
      have hset := GridBuf.set_snd root (vx + x) (vy + y) val
      have hsome := GridBuf.get_isSome root hWF hx2 hy2
      have hsame := GridBuf.set_get_same root hWF hx2 hy2 val
      unfold View.set
      rw [if_pos ⟨hx, hy⟩]
      refine ⟨?_, ?_, ?_⟩
      · show (root.set (vx + x) (vy + y) val).2 = View.get _ x y
        unfold View.get
        rw [if_pos ⟨hx, hy⟩]
        exact hset
      · unfold View.get
        rw [if_pos ⟨hx, hy⟩]
        exact hsome
      · unfold View.get
        rw [if_pos ⟨hx, hy⟩]
        exact hsame
    · rw [if_neg hc] at htv
      cases htv

/-- Witness for C3: writing 99 at (1, 0) of the 2x2 grid `[10,11,12,13]`. -/
theorem C3_witness :
    (GridBuf.set (⟨2, 2, [10, 11, 12, 13]⟩ : GridBuf Nat) 1 0 99).2 =
      GridBuf.get ⟨2, 2, [10, 11, 12, 13]⟩ 1 0
    ∧ (GridBuf.set (⟨2, 2, [10, 11, 12, 13]⟩ : GridBuf Nat) 1 0 99).1.get 1 0 = some 99 := by
  have h := (C3_read_after_write Nat).1 ⟨2, 2, [10, 11, 12, 13]⟩ 1 0 99
    (by decide) (by decide) (by decide)
  exact ⟨h.1, h.2.2⟩

/-! ## C7: whole-grid iteration is row-major -/

theorem GridIter.next_eq_some (g : GridBuf T) (it : GridIter) (v : T)
    (hget : g.get it.x it.y = some v) :
    GridIter.next g it =
      some ((v, it.x, it.y),
        if it.x + 1 = g.width then ⟨0, it.y + 1⟩ else ⟨it.x + 1, it.y⟩) := by
  unfold GridIter.next
  rw [hget]

theorem GridIter.next_eq_none (g : GridBuf T) (it : GridIter)
    (hget : g.get it.x it.y = none) :
    GridIter.next g it = none := by
  unfold GridIter.next
  rw [hget]

theorem GridIter.toList_zero (g : GridBuf T) (it : GridIter) :
    GridIter.toList g 0 it = [] := rfl

theorem GridIter.toList_succ_some (g : GridBuf T) (f : Nat) (it it2 : GridIter)
    (e : T × Nat × Nat) (hnext : GridIter.next g it = some (e, it2)) :
    GridIter.toList g (f + 1) it = e :: GridIter.toList g f it2 := by
  rw [GridIter.toList, hnext]

theorem GridIter.toList_succ_none (g : GridBuf T) (f : Nat) (it : GridIter)
    (hnext : GridIter.next g it = none) :
    GridIter.toList g (f + 1) it = [] := by
  rw [GridIter.toList, hnext]

theorem divmod_step (w k : Nat) (hw : 0 < w) :
    (if k % w + 1 = w then (⟨0, k / w + 1⟩ : GridIter) else ⟨k % w + 1, k / w⟩) =
      (⟨(k + 1) % w, (k + 1) / w⟩ : GridIter) := by
  have hdm : w * (k / w) + k % w = k := Nat.div_add_mod k w
  by_cases hc : k % w + 1 = w
  · rw [if_pos hc]
    have h1 : k + 1 = w * (k / w + 1) := by rw [Nat.mul_succ]; omega
    have hmod : (k + 1) % w = 0 := by rw [h1]; exact Nat.mul_mod_right w _
    have hdiv : (k + 1) / w = k / w + 1 := by rw [h1]; exact Nat.mul_div_cancel_left _ hw
    rw [hmod, hdiv]
  · rw [if_neg hc]
    have hlt : k % w + 1 < w := by
      have := Nat.mod_lt k hw
      omega
    have h1 : k + 1 = (k % w + 1) + w * (k / w) := by omega
    have hmod : (k + 1) % w = k % w + 1 := by
      rw [h1, Nat.add_mul_mod_self_left, Nat.mod_eq_of_lt hlt]
    have hdiv : (k + 1) / w = k / w := by
      rw [h1, Nat.add_mul_div_left _ _ hw, Nat.div_eq_of_lt hlt, Nat.zero_add]
    rw [hmod, hdiv]

theorem GridIter.toList_from (g : GridBuf T) (hWF : g.WF) (hw : 0 < g.width) :
    ∀ (m k fuel : Nat), k + m = g.width * g.height → m ≤ fuel →
      (GridIter.toList g fuel ⟨k % g.width, k / g.width⟩).map
          (fun e => ((some e.1 : Option T), e.2.1, e.2.2)) =
        (List.range' k m).map fun i => (g.store[i]?, i % g.width, i / g.width) := by
  obtain ⟨hus, hlen⟩ := (GridBuf.WF_iff g).mp hWF
  intro m
  induction m with
  | zero =>
    intro k fuel hk _
    have hk' : k = g.width * g.height := by omega
    have hmod : k % g.width = 0 := by rw [hk']; exact Nat.mul_mod_right _ _
    have hdiv : k / g.width = g.height := by
      rw [hk']; exact Nat.mul_div_cancel_left _ hw
    have hget : g.get 0 g.height = none := by
      rw [GridBuf.get_eq]
      by_cases h1 : g.height * g.width + 0 < USIZE
      · rw [if_pos h1]
        refine List.getElem?_eq_none ?_
        rw [hlen, Nat.mul_comm g.width g.height]
        omega
      · rw [if_neg h1]
    rw [hmod, hdiv]
    cases fuel with
    | zero => simp [GridIter.toList_zero]
    | succ f =>
      rw [GridIter.toList_succ_none g f ⟨0, g.height⟩ (GridIter.next_eq_none g _ hget)]
      simp
  | succ m ih =>
    intro k fuel hk hf
    have hklt : k < g.width * g.height := by omega
    have hx : k % g.width < g.width := Nat.mod_lt _ hw
    have hy : k / g.width < g.height := by
      rw [Nat.div_lt_iff_lt_mul hw, Nat.mul_comm g.height g.width]
      exact hklt
    have hidx : (k / g.width) * g.width + k % g.width = k := by
      have h0 := Nat.div_add_mod k g.width
      have h1 : k / g.width * g.width = g.width * (k / g.width) := Nat.mul_comm _ _
      omega
    have hklen : k < g.store.length := by omega
    have hget : g.get (k % g.width) (k / g.width) = g.store[k]? := by
      rw [GridBuf.get_inbounds g hWF hx hy, hidx]
    obtain ⟨v, hv⟩ : ∃ v, g.store[k]? = some v :=
      ⟨_, List.getElem?_eq_getElem hklen⟩
    cases fuel with
    | zero => omega
    | succ f =>
      have hnext := GridIter.next_eq_some g ⟨k % g.width, k / g.width⟩ v
        (by rw [hget, hv])
      rw [divmod_step g.width k hw] at hnext
      rw [GridIter.toList_succ_some g f _ _ _ hnext, List.range'_succ,
        List.map_cons, List.map_cons, hv]
      exact congrArg _ (ih (k + 1) f (by omega) (by omega))

theorem GridIter.toList_get (g : GridBuf T) :
    ∀ (fuel : Nat) (it : GridIter) (e : T × Nat × Nat),
      e ∈ GridIter.toList g fuel it → g.get e.2.1 e.2.2 = some e.1 := by
  intro fuel
  induction fuel with
  | zero =>
    intro it e he
    rw [GridIter.toList_zero] at he
    cases he
  | succ f ih =>
    intro it e he
    cases hnext : GridIter.next g it with
    | none =>
      rw [GridIter.toList_succ_none g f it hnext] at he
      cases he
    | some pr =>
      obtain ⟨e0, it2⟩ := pr
      rw [GridIter.toList_succ_some g f it it2 e0 hnext] at he
      rcases List.mem_cons.mp he with heq | htail
      · subst heq
        unfold GridIter.next at hnext
        revert hnext
        cases hget : g.get it.x it.y with
        | none => intro hnext; cases hnext
        | some v =>
          intro hnext
          have hpair := Option.some.inj hnext
          have he0 : e = (v, it.x, it.y) := (congrArg Prod.fst hpair).symm
          rw [he0]
          exact hget
      · exact ih it2 e htail

theorem range'_divmod (w : Nat) (hw : 0 < w) :
    ∀ h : Nat, (List.range' 0 (w * h)).map (fun i => (i % w, i / w)) =
      rowMajorPositions w h := by
  intro h
  induction h with
  | zero => simp [rowMajorPositions]
  | succ h ih =>
    have hsplit : List.range' 0 (w * (h + 1)) =
        List.range' 0 (w * h) ++ List.range' (w * h) w := by
      have hmul : w * (h + 1) = w + w * h := by
        rw [Nat.mul_succ, Nat.add_comm]
      rw [hmul, ← List.range'_append_1 0 (w * h) w, Nat.zero_add]
    rw [hsplit, List.map_append, ih]
    have hblock : (List.range' (w * h) w).map (fun i => (i % w, i / w)) =
        (List.range w).map fun x => (x, h) := by
      rw [List.range'_eq_map_range, List.map_map]
      refine List.map_congr_left ?_
      intro x hx
      rw [List.mem_range] at hx
      show ((w * h + x) % w, (w * h + x) / w) = (x, h)
      have hadd : w * h + x = x + w * h := Nat.add_comm _ _
      have hmod : (w * h + x) % w = x := by
        rw [hadd, Nat.add_mul_mod_self_left, Nat.mod_eq_of_lt hx]
      have hdiv : (w * h + x) / w = h := by
        rw [hadd, Nat.add_mul_div_left _ _ hw, Nat.div_eq_of_lt hx, Nat.zero_add]
      rw [hmod, hdiv]
    rw [hblock]
    show _ = rowMajorPositions w (h + 1)
    unfold rowMajorPositions
    rw [List.range_succ, List.flatMap_append]
    simp

theorem mem_rowMajorPositions {w h : Nat} {p : Nat × Nat} :
    p ∈ rowMajorPositions w h ↔ p.1 < w ∧ p.2 < h := by
  unfold rowMajorPositions
  constructor
  · intro hp
    rw [List.mem_flatMap] at hp
    obtain ⟨y, hy, hmem⟩ := hp
    rw [List.mem_map] at hmem
    obtain ⟨x, hx, hxy⟩ := hmem
    rw [List.mem_range] at hy
    rw [List.mem_range] at hx
    rw [← hxy]
    exact ⟨hx, hy⟩
  · intro ⟨h1, h2⟩
    rw [List.mem_flatMap]
    refine ⟨p.2, List.mem_range.mpr h2, ?_⟩
    rw [List.mem_map]
    exact ⟨p.1, List.mem_range.mpr h1, rfl⟩

theorem rowMajorPositions_nodup (w h : Nat) : (rowMajorPositions w h).Nodup := by
  induction h with
  | zero => simp [rowMajorPositions]
  | succ h ih =>
    have hsplit : rowMajorPositions w (h + 1) =
        rowMajorPositions w h ++ ((List.range w).map fun x => (x, h)) := by
      unfold rowMajorPositions
      rw [List.range_succ, List.flatMap_append]
      simp
    rw [hsplit]
    refine List.Nodup.append ih ?_ ?_
    · refine List.Nodup.map ?_ (List.nodup_range w)
      intro a b hab
      exact congrArg Prod.fst hab
    · intro p hp1 hp2
      have h1 := (mem_rowMajorPositions.mp hp1).2
      rw [List.mem_map] at hp2
      obtain ⟨x, _, hx⟩ := hp2
      rw [← hx] at h1
      exact absurd h1 (by omega)

/-- C7: iterating a `GridBuf` with `iter()` yields exactly
`width * height` triples `(element, x, y)`, the positions being precisely
the in-bounds coordinates in row-major order (`y` outer, `x` inner), each
exactly once, and each yielded element equals `get(x, y)`. -/
theorem C7_iter_visits_row_major (T : Type) (g : GridBuf T) (hWF : g.WF) :
    g.iterList.length = g.width * g.height
    ∧ g.iterList.map (fun e => (e.2.1, e.2.2)) = rowMajorPositions g.width g.height
    ∧ (rowMajorPositions g.width g.height).Nodup
    ∧ (∀ e ∈ g.iterList, g.get e.2.1 e.2.2 = some e.1) := by
  obtain ⟨hus, hlen⟩ := (GridBuf.WF_iff g).mp hWF
  have hget0 : ∀ e ∈ g.iterList, g.get e.2.1 e.2.2 = some e.1 := by
    intro e he
    exact GridIter.toList_get g _ _ e he
  by_cases hw : 0 < g.width
  · have hmap := GridIter.toList_from g hWF hw (g.width * g.height) 0
      (g.width * g.height + 1) (by omega) (by omega)
    rw [Nat.zero_mod, Nat.zero_div] at hmap
    have hmap' : g.iterList.map (fun e => ((some e.1 : Option T), e.2.1, e.2.2)) =
        (List.range' 0 (g.width * g.height)).map
          fun i => (g.store[i]?, i % g.width, i / g.width) := hmap
    refine ⟨?_, ?_, rowMajorPositions_nodup _ _, hget0⟩
    · have := congrArg List.length hmap'
      simp only [List.length_map] at this
      rw [this, List.length_range']
    · have hsnd := congrArg (List.map Prod.snd) hmap'
      rw [List.map_map, List.map_map] at hsnd
      have hleft : (Prod.snd ∘ fun e : T × Nat × Nat =>
          ((some e.1 : Option T), e.2.1, e.2.2)) = fun e => (e.2.1, e.2.2) := rfl
      have hright : (Prod.snd ∘ fun i : Nat =>
          ((g.store[i]? : Option T), i % g.width, i / g.width)) =
          fun i => (i % g.width, i / g.width) := rfl
      rw [hleft, hright] at hsnd
      rw [hsnd, range'_divmod g.width hw]
  · have hw0 : g.width = 0 := by omega
    have hempty : g.iterList = [] := by
      unfold GridBuf.iterList
      have hget : g.get 0 0 = none := by
        rw [GridBuf.get_eq]
        by_cases h1 : 0 * g.width + 0 < USIZE
        · rw [if_pos h1]
          refine List.getElem?_eq_none ?_
          rw [hlen, hw0]
          omega
        · rw [if_neg h1]
      rw [hw0, Nat.zero_mul]
      exact GridIter.toList_succ_none g 0 ⟨0, 0⟩ (GridIter.next_eq_none g _ hget)
    have hpos0 : rowMajorPositions g.width g.height = [] := by
      rw [hw0]
      unfold rowMajorPositions
      induction g.height with
      | zero => simp
      | succ n ihh => rw [List.range_succ, List.flatMap_append]; simp [ihh]
    rw [hempty, hpos0, hw0]
    refine ⟨by simp, by simp, List.Pairwise.nil, by intro e he; cases he⟩

/-- Witness for C7: the 3x2 grid visits positions
`(0,0), (1,0), (2,0), (0,1), (1,1), (2,1)` in order. -/
theorem C7_witness :
    (GridBuf.iterList (⟨3, 2, [10, 11, 12, 13, 14, 15]⟩ : GridBuf Nat)).map
        (fun e => (e.2.1, e.2.2)) = [(0, 0), (1, 0), (2, 0), (0, 1), (1, 1), (2, 1)]
    ∧ (GridBuf.iterList (⟨3, 2, [10, 11, 12, 13, 14, 15]⟩ : GridBuf Nat)).length = 6 := by
  have h := C7_iter_visits_row_major Nat ⟨3, 2, [10, 11, 12, 13, 14, 15]⟩ (by decide)
  refine ⟨?_, ?_⟩
  · rw [h.2.1]
    decide
  · rw [h.1]
    decide


/-! ## Shared write-range machinery for the bulk row operations -/

theorem listWriteRange_nil (l : List T) (s : Nat) :
    listWriteRange l s [] = l := by
  unfold listWriteRange
  simp

theorem listWriteRange_length (l : List T) (s : Nat) (vals : List T)
    (hle : s + vals.length ≤ l.length) :
    (listWriteRange l s vals).length = l.length := by
  unfold listWriteRange
  simp
  omega

theorem listWriteRange_getElem? (l : List T) (s : Nat) (vals : List T)
    (hle : s + vals.length ≤ l.length) (i : Nat) :
    (listWriteRange l s vals)[i]? =
      if s ≤ i ∧ i < s + vals.length then vals[i - s]? else l[i]? := by
  unfold listWriteRange
  have hts : (l.take s).length = s := by simp; omega
  have hlen1 : (l.take s ++ vals).length = s + vals.length := by simp; omega
  rw [List.getElem?_append, hlen1]
  by_cases h2 : i < s + vals.length
  · rw [if_pos h2, List.getElem?_append, hts]
    by_cases h1 : i < s
    · rw [if_pos h1, if_neg (by omega), List.getElem?_take, if_pos h1]
    · rw [if_neg h1, if_pos (by omega)]
  · rw [if_neg h2, if_neg (by omega), List.getElem?_drop]
    congr 1
    omega

theorem listExtract_length (l : List T) (s n : Nat) (h : s + n ≤ l.length) :
    (listExtract l s n).length = n := by
  unfold listExtract
  simp
  omega

theorem listExtract_getElem? (l : List T) (s n : Nat) (i : Nat) (hi : i < n) :
    (listExtract l s n)[i]? = l[s + i]? := by
  unfold listExtract
  rw [List.getElem?_take, if_pos hi, List.getElem?_drop]

theorem GridBuf.rowSliceRange_eq (g : GridBuf T) (hWF : g.WF) (y : Nat)
    (hy : y < g.height) :
    g.rowSliceRange y = some (y * g.width, g.width) := by
  obtain ⟨hus, hlen⟩ := (GridBuf.WF_iff g).mp hWF
  have hle : y * g.width + g.width ≤ g.store.length := by
    have h1 : (y + 1) * g.width ≤ g.height * g.width := Nat.mul_le_mul_right _ hy
    rw [Nat.succ_mul] at h1
    rw [hlen, Nat.mul_comm g.width g.height]
    exact h1
  have hmu : y * g.width < USIZE := by omega
  unfold GridBuf.rowSliceRange checkedMul sliceRange?
  rw [if_pos hmu]
  show (if y * g.width ≤ y * g.width + g.width ∧
      y * g.width + g.width ≤ g.store.length then
    some (y * g.width, y * g.width + g.width - y * g.width) else none) = _
  rw [if_pos ⟨by omega, hle⟩]
  have harith : y * g.width + g.width - y * g.width = g.width := by omega
  rw [harith]

theorem row_index_unique {W a b c : Nat} (ha : a < W)
    (h1 : c * W ≤ b * W + a) (h2 : b * W + a < (c + 1) * W) : b = c := by
  have h3 : c * W < (b + 1) * W := by rw [Nat.succ_mul]; omega
  have h4 : c < b + 1 := by
    by_contra hcon
    have : (b + 1) * W ≤ c * W := Nat.mul_le_mul_right _ (by omega)
    omega
  have h5 : b * W < (c + 1) * W := by omega
  have h6 : b < c + 1 := by
    by_contra hcon
    have : (c + 1) * W ≤ b * W := Nat.mul_le_mul_right _ (by omega)
    omega
  omega

/-! ## C8: filling a mutable view -/

theorem optFoldlM_nil (f : β → α → Option β) (b : β) :
    List.foldlM f b ([] : List α) = some b := rfl

theorem optFoldlM_cons (f : β → α → Option β) (b : β) (a : α) (l : List α) :
    List.foldlM f b (a :: l) = (f b a).bind fun b2 => List.foldlM f b2 l := by
  cases hfa : f b a with
  | none => simp [List.foldlM_cons, hfa]
  | some b2 => simp [List.foldlM_cons, hfa]

theorem View.rowSliceRange_at (W0 H0 X0 Y0 Wv Hv : Nat) (st : List T) (j : Nat)
    (hlen : st.length = W0 * H0) (hus : W0 * H0 < USIZE)
    (hxv : X0 + Wv ≤ W0) (hyv : Y0 + Hv ≤ H0) (hj : j < Hv) :
    View.rowSliceRange ⟨⟨W0, H0, st⟩, X0, Y0, Wv, Hv⟩ j =
      some ((Y0 + j) * W0 + X0, Wv) := by
  have hWF : (⟨W0, H0, st⟩ : GridBuf T).WF := (GridBuf.WF_iff _).mpr ⟨hus, hlen⟩
  have hrow : (Y0 + j) < H0 := by omega
  unfold View.rowSliceRange
  rw [if_pos hj]
  rw [GridBuf.rowSliceRange_eq ⟨W0, H0, st⟩ hWF (Y0 + j) hrow]
  show (sliceRange? W0 X0 (X0 + Wv)).map _ = _
  unfold sliceRange?
  rw [if_pos ⟨by omega, hxv⟩]
  show some ((Y0 + j) * W0 + X0, X0 + Wv - X0) = _
  have harith : X0 + Wv - X0 = Wv := by omega
  rw [harith]

theorem View.rowFill_fast (W0 H0 X0 Y0 Wv Hv : Nat) (st : List T) (j : Nat) (val : T)
    (hlen : st.length = W0 * H0) (hus : W0 * H0 < USIZE)
    (hxv : X0 + Wv ≤ W0) (hyv : Y0 + Hv ≤ H0) (hj : j < Hv) :
    View.rowFill ⟨⟨W0, H0, st⟩, X0, Y0, Wv, Hv⟩ j val =
      some ⟨⟨W0, H0,
        listWriteRange st ((Y0 + j) * W0 + X0) (List.replicate Wv val)⟩,
        X0, Y0, Wv, Hv⟩ := by
  unfold View.rowFill
  by_cases hw0 : Wv = 0
  · show (if Wv = 0 then _ else _) = _
    rw [if_pos hw0]
    subst hw0
    rw [List.replicate_zero, listWriteRange_nil]
  · show (if Wv = 0 then _ else _) = _
    rw [if_neg hw0]
    rw [View.rowSliceRange_at W0 H0 X0 Y0 Wv Hv st j hlen hus hxv hyv hj]

theorem fill_rows_char (W0 H0 X0 Y0 Wv Hv : Nat) (val : T)
    (hus : W0 * H0 < USIZE) (hxv : X0 + Wv ≤ W0) (hyv : Y0 + Hv ≤ H0) :
    ∀ (ys : List Nat) (st : List T), st.length = W0 * H0 → (∀ j ∈ ys, j < Hv) →
      ∃ st2 : List T,
        List.foldlM (fun vv j => View.rowFill vv j val)
            (⟨⟨W0, H0, st⟩, X0, Y0, Wv, Hv⟩ : View (GridBuf T)) ys =
          some ⟨⟨W0, H0, st2⟩, X0, Y0, Wv, Hv⟩
        ∧ st2.length = W0 * H0
        ∧ ∀ i : Nat, st2[i]? =
            if ∃ j ∈ ys, (Y0 + j) * W0 + X0 ≤ i ∧ i < (Y0 + j) * W0 + X0 + Wv
            then some val else st[i]? := by
  intro ys
  induction ys with
  | nil =>
    intro st hlen _
    refine ⟨st, optFoldlM_nil _ _, hlen, ?_⟩
    intro i
    rw [if_neg (by simp)]
  | cons j ys ih =>
    intro st hlen hmem
    have hj : j < Hv := hmem j (List.mem_cons_self j ys)
    have hseg : (Y0 + j) * W0 + X0 + Wv ≤ st.length := by
      have h1 : (Y0 + j + 1) * W0 ≤ H0 * W0 := Nat.mul_le_mul_right _ (by omega)
      rw [Nat.succ_mul] at h1
      rw [hlen, Nat.mul_comm W0 H0]
      omega
    set st1 := listWriteRange st ((Y0 + j) * W0 + X0) (List.replicate Wv val) with hst1
    have hlen1 : st1.length = W0 * H0 := by
      rw [hst1, listWriteRange_length]
      · exact hlen
      · rw [List.length_replicate]
        omega
    obtain ⟨st2, hfold, hlen2, hchar⟩ := ih st1 hlen1 (fun j2 hj2 => hmem j2 (List.mem_cons_of_mem _ hj2))
    refine ⟨st2, ?_, hlen2, ?_⟩
    · rw [optFoldlM_cons,
        View.rowFill_fast W0 H0 X0 Y0 Wv Hv st j val hlen hus hxv hyv hj]
      exact hfold
    · intro i
      rw [hchar i]
      have hst1i : st1[i]? =
          if (Y0 + j) * W0 + X0 ≤ i ∧ i < (Y0 + j) * W0 + X0 + Wv
          then some val else st[i]? := by
        rw [hst1, listWriteRange_getElem? st _ _ (by rw [List.length_replicate]; omega) i]
        by_cases hin : (Y0 + j) * W0 + X0 ≤ i ∧ i < (Y0 + j) * W0 + X0 + (List.replicate Wv val).length
        · rw [if_pos hin]
          have hlt : i - ((Y0 + j) * W0 + X0) < Wv := by
            rw [List.length_replicate] at hin
            omega
          rw [if_pos (by rw [List.length_replicate] at hin; omega),
            List.getElem?_replicate, if_pos hlt]
        · rw [if_neg hin, if_neg (by rw [List.length_replicate] at hin; omega)]
      by_cases hc1 : ∃ j2 ∈ ys, (Y0 + j2) * W0 + X0 ≤ i ∧ i < (Y0 + j2) * W0 + X0 + Wv
      · rw [if_pos hc1]
        obtain ⟨j2, hj2m, hj2i⟩ := hc1
        rw [if_pos ⟨j2, List.mem_cons_of_mem _ hj2m, hj2i⟩]
      · rw [if_neg hc1, hst1i]
        by_cases hc2 : (Y0 + j) * W0 + X0 ≤ i ∧ i < (Y0 + j) * W0 + X0 + Wv
        · rw [if_pos hc2, if_pos ⟨j, List.mem_cons_self j ys, hc2⟩]
        · rw [if_neg hc2, if_neg ?_]
          intro hcon
          obtain ⟨j2, hj2m, hj2i⟩ := hcon
          rcases List.mem_cons.mp hj2m with rfl | hj2m2
          · exact hc2 hj2i
          · exact hc1 ⟨j2, hj2m2, hj2i⟩

theorem mem_range1 {s n m : Nat} : m ∈ List.range' s n ↔ s ≤ m ∧ m < s + n := by
  rw [List.mem_range']
  constructor
  · rintro ⟨i, hi, rfl⟩
    omega
  · intro ⟨h1, h2⟩
    exact ⟨m - s, by omega, by omega⟩

theorem seg_iff (W0 a b r x w : Nat) (ha : a < W0) (hxw : x + w ≤ W0) :
    (r * W0 + x ≤ b * W0 + a ∧ b * W0 + a < r * W0 + x + w) ↔
      (b = r ∧ x ≤ a ∧ a < x + w) := by
  constructor
  · rintro ⟨h1, h2⟩
    have hb : b = r := by
      refine row_index_unique ha (by omega) ?_
      rw [Nat.succ_mul]
      omega
    subst hb
    omega
  · rintro ⟨rfl, h3, h4⟩
    omega

theorem View.fill_eq (W0 H0 X0 Y0 Wv Hv : Nat) (st : List T) (val : T) :
    View.fill ⟨⟨W0, H0, st⟩, X0, Y0, Wv, Hv⟩ val =
      if Hv = 0 then some ⟨⟨W0, H0, st⟩, X0, Y0, Wv, Hv⟩
      else (List.foldlM (fun vv j => View.rowFill vv j val)
          (⟨⟨W0, H0, st⟩, X0, Y0, Wv, Hv⟩ : View (GridBuf T))
          (List.range' 1 (Hv - 1))).bind
        fun vv => View.rowFill vv 0 val := rfl

/-- C8: filling a mutable view writes exactly the cells inside the view's
rectangle of the root grid and leaves every other root cell unchanged; on
the 3x3 grid `[0..9]`, the view `(1,1,2,2)` reads 4 at local `(0,0)` and 8
at local `(1,1)`, and filling it with 9 turns the root store into
`[0,1,2,3,9,9,6,9,9]`. -/
theorem C8_view_fill_frame (T : Type) :
    (∀ (g : GridBuf T) (x y w h : Nat) (v : View (GridBuf T)) (val : T),
      g.WF → g.tryViewMut x y w h = some v →
      ∃ v2, View.fill v val = some v2
        ∧ v2.grid.width = g.width ∧ v2.grid.height = g.height
        ∧ ∀ a b, a < g.width → b < g.height →
            v2.grid.get a b =
              if x ≤ a ∧ a < x + w ∧ y ≤ b ∧ b < y + h then some val
              else g.get a b)
    ∧ GridBuf.tryViewMut (⟨3, 3, [0, 1, 2, 3, 4, 5, 6, 7, 8]⟩ : GridBuf Nat) 1 1 2 2 =
        some ⟨⟨3, 3, [0, 1, 2, 3, 4, 5, 6, 7, 8]⟩, 1, 1, 2, 2⟩
    ∧ View.get (⟨⟨3, 3, [0, 1, 2, 3, 4, 5, 6, 7, 8]⟩, 1, 1, 2, 2⟩ : View (GridBuf Nat)) 0 0 =
        some 4
    ∧ View.get (⟨⟨3, 3, [0, 1, 2, 3, 4, 5, 6, 7, 8]⟩, 1, 1, 2, 2⟩ : View (GridBuf Nat)) 1 1 =
        some 8
    ∧ (View.fill (⟨⟨3, 3, [0, 1, 2, 3, 4, 5, 6, 7, 8]⟩, 1, 1, 2, 2⟩ : View (GridBuf Nat)) 9).map
        (fun v2 => v2.grid.store) = some [0, 1, 2, 3, 9, 9, 6, 9, 9] := by
  refine ⟨?_, by decide, by decide, by decide, by decide⟩
  intro g x y w h v val hWF htv
  obtain ⟨W0, H0, st⟩ := g
  obtain ⟨hus, hlen⟩ := (GridBuf.WF_iff _).mp hWF
  have hlen' : st.length = W0 * H0 := hlen
  have hus' : W0 * H0 < USIZE := hus
  unfold GridBuf.tryViewMut at htv
  by_cases hc : x + w ≤ W0 ∧ y + h ≤ H0
  swap
  · rw [if_neg hc] at htv
    cases htv
  rw [if_pos hc] at htv
  cases htv
  have hxv : x + w ≤ W0 := hc.1
  have hyv : y + h ≤ H0 := hc.2
  by_cases hh : h = 0
  · subst hh
    refine ⟨⟨⟨W0, H0, st⟩, x, y, w, 0⟩, by rw [View.fill_eq, if_pos rfl], rfl, rfl, ?_⟩
    intro a b ha hb
    rw [if_neg (by omega)]
  · have hmem : ∀ j ∈ List.range' 1 (h - 1), j < h := by
      intro j hj
      have := mem_range1.mp hj
      omega
    obtain ⟨st2, hfold, hlen2, hchar⟩ :=
      fill_rows_char W0 H0 x y w h val hus' hxv hyv (List.range' 1 (h - 1)) st hlen' hmem
    have hy0 : y < H0 := by omega
    have hseg0 : (y + 0) * W0 + x + w ≤ st2.length := by
      have h1 : (y + 1) * W0 ≤ H0 * W0 := Nat.mul_le_mul_right _ (by omega)
      rw [Nat.succ_mul] at h1
      rw [hlen2, Nat.mul_comm W0 H0]
      simp only [Nat.add_zero]
      omega
    set st3 := listWriteRange st2 ((y + 0) * W0 + x) (List.replicate w val) with hst3
    have hlen3 : st3.length = W0 * H0 := by
      rw [hst3, listWriteRange_length st2 _ _ (by rw [List.length_replicate]; omega)]
      exact hlen2
    have hfill : View.fill ⟨⟨W0, H0, st⟩, x, y, w, h⟩ val =
        some ⟨⟨W0, H0, st3⟩, x, y, w, h⟩ := by
      rw [View.fill_eq, if_neg hh, hfold, Option.some_bind,
        View.rowFill_fast W0 H0 x y w h st2 0 val hlen2 hus' hxv hyv (by omega)]
    refine ⟨⟨⟨W0, H0, st3⟩, x, y, w, h⟩, hfill, rfl, rfl, ?_⟩
    intro a b ha hb
    have hWF3 : (⟨W0, H0, st3⟩ : GridBuf T).WF := (GridBuf.WF_iff _).mpr ⟨hus', hlen3⟩
    have hWForig : (⟨W0, H0, st⟩ : GridBuf T).WF := (GridBuf.WF_iff _).mpr ⟨hus', hlen'⟩
    rw [GridBuf.get_inbounds _ hWF3 ha hb, GridBuf.get_inbounds _ hWForig ha hb]
    show st3[b * W0 + a]? = _
    have hst3i : st3[b * W0 + a]? =
        if (y + 0) * W0 + x ≤ b * W0 + a ∧ b * W0 + a < (y + 0) * W0 + x + w
        then some val else st2[b * W0 + a]? := by
      rw [hst3, listWriteRange_getElem? st2 _ _ (by rw [List.length_replicate]; omega)]
      by_cases hin : (y + 0) * W0 + x ≤ b * W0 + a ∧
          b * W0 + a < (y + 0) * W0 + x + (List.replicate w val).length
      · rw [if_pos hin, if_pos (by rw [List.length_replicate] at hin; omega)]
        rw [List.getElem?_replicate,
          if_pos (by rw [List.length_replicate] at hin; omega)]
      · rw [if_neg hin, if_neg (by rw [List.length_replicate] at hin; omega)]
    have hE1 : ((y + 0) * W0 + x ≤ b * W0 + a ∧ b * W0 + a < (y + 0) * W0 + x + w) ↔
        (b = y ∧ x ≤ a ∧ a < x + w) := by
      simp only [Nat.add_zero]
      exact seg_iff W0 a b y x w ha hxv
    rw [hst3i]
    by_cases hrect : x ≤ a ∧ a < x + w ∧ y ≤ b ∧ b < y + h
    · rw [if_pos hrect]
      by_cases hb0 : b = y
      · rw [if_pos (hE1.mpr ⟨hb0, hrect.1, hrect.2.1⟩)]
      · rw [if_neg (fun hcon => hb0 (hE1.mp hcon).1), hchar]
        rw [if_pos ?_]
        refine ⟨b - y, mem_range1.mpr ⟨by omega, by omega⟩, ?_⟩
        have hby : y + (b - y) = b := by omega
        rw [hby]
        omega
    · rw [if_neg hrect]
      rw [if_neg ?_, hchar, if_neg ?_]
      · intro hcon
        obtain ⟨j, hjm, hjseg⟩ := hcon
        have hj := mem_range1.mp hjm
        have := (seg_iff W0 a b (y + j) x w ha hxv).mp hjseg
        exact hrect ⟨this.2.1, this.2.2, by omega, by omega⟩
      · intro hcon
        have := hE1.mp hcon
        exact hrect ⟨this.2.1, this.2.2, by omega, by omega⟩

/-- Witness for C8: the frame theorem applied at the concrete 3x3 scenario,
checking an inside cell and an outside cell of the root after the fill. -/
theorem C8_witness :
    ∃ v2, View.fill (⟨⟨3, 3, [0, 1, 2, 3, 4, 5, 6, 7, 8]⟩, 1, 1, 2, 2⟩ :
        View (GridBuf Nat)) 9 = some v2
      ∧ v2.grid.get 1 1 = some 9
      ∧ v2.grid.get 0 2 = GridBuf.get ⟨3, 3, [0, 1, 2, 3, 4, 5, 6, 7, 8]⟩ 0 2 := by
  obtain ⟨v2, hfill, hw, hh, hget⟩ :=
    (C8_view_fill_frame Nat).1 ⟨3, 3, [0, 1, 2, 3, 4, 5, 6, 7, 8]⟩ 1 1 2 2
      ⟨⟨3, 3, [0, 1, 2, 3, 4, 5, 6, 7, 8]⟩, 1, 1, 2, 2⟩ 9 (by decide) (by decide)
  refine ⟨v2, hfill, ?_, ?_⟩
  · rw [hget 1 1 (by decide) (by decide), if_pos (by omega)]
  · rw [hget 0 2 (by decide) (by decide), if_neg (by omega)]

/-! ## C9: `Row::clone_from` / `Row::copy_from` branch equivalence -/

theorem listWriteRange_set_shift (st : List T) (vals : List T) (base a : Nat)
    (ha : a < vals.length) (hbound : base + vals.length ≤ st.length) (v : T)
    (hv : vals[a]? = some v) :
    listWriteRange (st.set (base + a) v) (base + (a + 1)) (vals.drop (a + 1)) =
      listWriteRange st (base + a) (vals.drop a) := by
  have hlen' : (st.set (base + a) v).length = st.length := by simp
  have hd1 : (vals.drop (a + 1)).length = vals.length - (a + 1) := by simp
  have hd0 : (vals.drop a).length = vals.length - a := by simp
  refine List.ext_getElem? fun i => ?_
  rw [listWriteRange_getElem? _ _ _ (by omega) i,
    listWriteRange_getElem? _ _ _ (by omega) i]
  rw [hd1, hd0]
  by_cases h1 : i < base + a
  · rw [if_neg (by omega), if_neg (by omega),
      List.getElem?_set_ne (by omega)]
  · by_cases h2 : i = base + a
    · subst h2
      rw [if_neg (by omega), if_pos (by omega)]
      rw [List.getElem?_set_self (by omega), List.getElem?_drop]
      have : a + (base + a - (base + a)) = a := by omega
      rw [this, hv]
    · by_cases h3 : i < base + vals.length
      · rw [if_pos (by omega), if_pos (by omega),
          List.getElem?_drop, List.getElem?_drop]
        congr 1
        omega
      · rw [if_neg (by omega), if_neg (by omega),
          List.getElem?_set_ne (by omega)]

theorem toggle_fold_write (W0 H0 : Nat) (bb : Bool) (base : Nat) (vals : List T)
    (step : ToggleGrid T → Nat → Option (ToggleGrid T)) (L0 : Nat)
    (hstep : ∀ (st : List T) (x : Nat) (v : T), x < vals.length → st.length = L0 →
        vals[x]? = some v →
        step ⟨⟨W0, H0, st⟩, bb⟩ x = some ⟨⟨W0, H0, st.set (base + x) v⟩, bb⟩)
    (hbound : base + vals.length ≤ L0) :
    ∀ (m a : Nat), a + m = vals.length → ∀ (st : List T), st.length = L0 →
      List.foldlM step (⟨⟨W0, H0, st⟩, bb⟩ : ToggleGrid T) (List.range' a m) =
        some ⟨⟨W0, H0, listWriteRange st (base + a) (vals.drop a)⟩, bb⟩ := by
  intro m
  induction m with
  | zero =>
    intro a ha st hst
    have ha' : a = vals.length := by omega
    rw [ha', List.drop_length, listWriteRange_nil]
    exact optFoldlM_nil _ _
  | succ m ih =>
    intro a ha st hst
    have hav : a < vals.length := by omega
    obtain ⟨v, hv⟩ : ∃ v, vals[a]? = some v :=
      ⟨_, List.getElem?_eq_getElem hav⟩
    rw [List.range'_succ, optFoldlM_cons, hstep st a v hav hst hv,
      Option.some_bind]
    have hres := ih (a + 1) (by omega) (st.set (base + a) v) (by simp; omega)
    rw [hres, listWriteRange_set_shift st vals base a hav (by omega) v hv]

theorem toggle_fold_write_full (W0 H0 : Nat) (bb : Bool) (base : Nat) (vals : List T)
    (step : ToggleGrid T → Nat → Option (ToggleGrid T)) (L0 : Nat)
    (hstep : ∀ (st : List T) (x : Nat) (v : T), x < vals.length → st.length = L0 →
        vals[x]? = some v →
        step ⟨⟨W0, H0, st⟩, bb⟩ x = some ⟨⟨W0, H0, st.set (base + x) v⟩, bb⟩)
    (hbound : base + vals.length ≤ L0)
    (n : Nat) (hn : n = vals.length) (st : List T) (hst : st.length = L0) :
    List.foldlM step (⟨⟨W0, H0, st⟩, bb⟩ : ToggleGrid T) (List.range n) =
      some ⟨⟨W0, H0, listWriteRange st base vals⟩, bb⟩ := by
  subst hn
  rw [List.range_eq_range']
  have h := toggle_fold_write W0 H0 bb base vals step L0 hstep hbound
    vals.length 0 (by omega) st hst
  rw [Nat.add_zero, List.drop_zero] at h
  exact h

/-- C9: for every pair of equal-length rows (row `y1` of the destination,
row `y2` of the source, both dense-backed, slice exposure toggled by `b1`,
`b2`), `Row::clone_from` and `Row::copy_from` succeed and produce the same
destination contents in all four slice-availability branches, equal to the
element-wise specification `rowCopyModel`; destination cell `i` equals
source cell `i` for every `i < len`. -/
theorem C9_row_clone_copy_equivalence (T : Type) (dstBuf srcBuf : GridBuf T)
    (y1 y2 : Nat) (b1 b2 : Bool)
    (hd : dstBuf.WF) (hs : srcBuf.WF) (hw : dstBuf.width = srcBuf.width)
    (hy1 : y1 < dstBuf.height) (hy2 : y2 < srcBuf.height) :
    rowCloneFrom ⟨dstBuf, b1⟩ y1 ⟨srcBuf, b2⟩ y2 =
        some ⟨rowCopyModel dstBuf y1 srcBuf y2, b1⟩
    ∧ rowCopyFrom ⟨dstBuf, b1⟩ y1 ⟨srcBuf, b2⟩ y2 =
        some ⟨rowCopyModel dstBuf y1 srcBuf y2, b1⟩
    ∧ ∀ i, i < dstBuf.width →
        (rowCopyModel dstBuf y1 srcBuf y2).get i y1 = srcBuf.get i y2 := by
  have hcc : @rowCloneFrom T = @rowCopyFrom T := rfl
  obtain ⟨Wd, Hd, dst⟩ := dstBuf
  obtain ⟨Ws, Hs, sst⟩ := srcBuf
  have hww : Wd = Ws := hw
  subst hww
  obtain ⟨husd, hlend⟩ := (GridBuf.WF_iff _).mp hd
  obtain ⟨huss, hlens⟩ := (GridBuf.WF_iff _).mp hs
  have hlend' : dst.length = Wd * Hd := hlend
  have hlens' : sst.length = Wd * Hs := hlens
  have husd' : Wd * Hd < USIZE := husd
  have hy1' : y1 < Hd := hy1
  have hy2' : y2 < Hs := hy2
  have hsbound : y2 * Wd + Wd ≤ sst.length := by
    have h1 : (y2 + 1) * Wd ≤ Hs * Wd := Nat.mul_le_mul_right _ (by omega)
    rw [Nat.succ_mul] at h1
    rw [hlens', Nat.mul_comm Wd Hs]
    omega
  have hdbound : y1 * Wd + Wd ≤ dst.length := by
    have h1 : (y1 + 1) * Wd ≤ Hd * Wd := Nat.mul_le_mul_right _ (by omega)
    rw [Nat.succ_mul] at h1
    rw [hlend', Nat.mul_comm Wd Hd]
    omega
  have hsrclen : (listExtract sst (y2 * Wd) Wd).length = Wd :=
    listExtract_length sst _ _ hsbound
  have hbase : y1 * Wd + (listExtract sst (y2 * Wd) Wd).length ≤ dst.length := by
    rw [hsrclen]
    omega
  have hsrcval : ∀ x, x < Wd →
      (listExtract sst (y2 * Wd) Wd)[x]? = sst[y2 * Wd + x]? :=
    fun x hx => listExtract_getElem? sst _ _ x hx
  have hgets : ∀ (β : Bool) (x : Nat), x < Wd →
      ToggleGrid.get ⟨⟨Wd, Hs, sst⟩, β⟩ x y2 = sst[y2 * Wd + x]? := by
    intro β x hx
    unfold ToggleGrid.get
    exact GridBuf.get_inbounds _ hs hx hy2'
  have hmodel : rowCopyModel ⟨Wd, Hd, dst⟩ y1 ⟨Wd, Hs, sst⟩ y2 =
      ⟨Wd, Hd, listWriteRange dst (y1 * Wd) (listExtract sst (y2 * Wd) Wd)⟩ := rfl
  have hwc : ∀ (β : Bool) (st : List T) (x : Nat) (v : T), x < Wd →
      st.length = dst.length →
      ToggleGrid.writeCell? ⟨⟨Wd, Hd, st⟩, β⟩ x y1 v =
        some ⟨⟨Wd, Hd, st.set (y1 * Wd + x) v⟩, β⟩ := by
    intro β st x v hx hst
    unfold ToggleGrid.writeCell? GridBuf.writeCell?
    rw [GridBuf.getMutIndex_eq]
    rw [if_pos ⟨by show y1 * Wd + x < USIZE; omega,
      by show y1 * Wd + x < st.length; omega⟩]
    rfl
  have hget3 : ∀ i, i < Wd →
      GridBuf.get ⟨Wd, Hd, listWriteRange dst (y1 * Wd) (listExtract sst (y2 * Wd) Wd)⟩
          i y1 = GridBuf.get ⟨Wd, Hs, sst⟩ i y2 := by
    intro i hi
    have hlenm : (listWriteRange dst (y1 * Wd) (listExtract sst (y2 * Wd) Wd)).length =
        Wd * Hd := by
      rw [listWriteRange_length _ _ _ hbase]
      exact hlend'
    have hWFm : (⟨Wd, Hd, listWriteRange dst (y1 * Wd)
        (listExtract sst (y2 * Wd) Wd)⟩ : GridBuf T).WF :=
      (GridBuf.WF_iff _).mpr ⟨husd', hlenm⟩
    rw [GridBuf.get_inbounds _ hWFm hi hy1', GridBuf.get_inbounds _ hs hi hy2']
    show (listWriteRange dst (y1 * Wd) (listExtract sst (y2 * Wd) Wd))[y1 * Wd + i]? =
      sst[y2 * Wd + i]?
    rw [listWriteRange_getElem? _ _ _ hbase,
      if_pos ⟨by omega, by rw [hsrclen]; omega⟩]
    have harith : y1 * Wd + i - y1 * Wd = i := by omega
    rw [harith, hsrcval i hi]
  have hdrT : ToggleGrid.rowSliceRange ⟨⟨Wd, Hd, dst⟩, true⟩ y1 =
      some (y1 * Wd, Wd) := by
    unfold ToggleGrid.rowSliceRange
    rw [if_pos rfl]
    exact GridBuf.rowSliceRange_eq _ hd y1 hy1'
  have hdrF : ToggleGrid.rowSliceRange ⟨⟨Wd, Hd, dst⟩, false⟩ y1 = none := by
    unfold ToggleGrid.rowSliceRange
    rw [if_neg (by simp)]
  have hsrT : ToggleGrid.rowSlice ⟨⟨Wd, Hs, sst⟩, true⟩ y2 =
      some (listExtract sst (y2 * Wd) Wd) := by
    unfold ToggleGrid.rowSlice GridBuf.rowSlice
    rw [if_pos rfl, GridBuf.rowSliceRange_eq _ hs y2 hy2']
    rfl
  have hsrF : ToggleGrid.rowSlice ⟨⟨Wd, Hs, sst⟩, false⟩ y2 = none := by
    unfold ToggleGrid.rowSlice
    rw [if_neg (by simp)]
  have hclone : rowCloneFrom ⟨⟨Wd, Hd, dst⟩, b1⟩ y1 ⟨⟨Wd, Hs, sst⟩, b2⟩ y2 =
      some ⟨rowCopyModel ⟨Wd, Hd, dst⟩ y1 ⟨Wd, Hs, sst⟩ y2, b1⟩ := by
    rw [hmodel]
    unfold rowCloneFrom
    rw [if_pos rfl]
    cases b1 with
    | true =>
      cases b2 with
      | true =>
        rw [hdrT, hsrT]
        show (if (listExtract sst (y2 * Wd) Wd).length = Wd then _ else _) = _
        rw [if_pos hsrclen]
      | false =>
        rw [hdrT, hsrF]
        show List.foldlM _ (⟨⟨Wd, Hd, dst⟩, true⟩ : ToggleGrid T) (List.range Wd) = _
        refine toggle_fold_write_full Wd Hd true (y1 * Wd)
          (listExtract sst (y2 * Wd) Wd) _ dst.length ?_ hbase Wd hsrclen.symm dst rfl
        intro st x v hx' hst hv
        have hx : x < Wd := by rw [hsrclen] at hx'; exact hx'
        have hscr : ToggleGrid.get ⟨⟨Wd, Hs, sst⟩, false⟩ x y2 = some v := by
          rw [hgets false x hx, ← hsrcval x hx]
          exact hv
        show (match ToggleGrid.get ⟨⟨Wd, Hs, sst⟩, false⟩ x y2 with
          | none => none
          | some val =>
            if x < Wd then
              some (⟨⟨Wd, Hd, st.set (y1 * Wd + x) val⟩, true⟩ : ToggleGrid T)
            else none) = _
        rw [hscr]
        show (if x < Wd then
          some (⟨⟨Wd, Hd, st.set (y1 * Wd + x) v⟩, true⟩ : ToggleGrid T)
          else none) = _
        rw [if_pos hx]
    | false =>
      cases b2 with
      | true =>
        rw [hdrF, hsrT]
        show List.foldlM _ (⟨⟨Wd, Hd, dst⟩, false⟩ : ToggleGrid T) (List.range Wd) = _
        refine toggle_fold_write_full Wd Hd false (y1 * Wd)
          (listExtract sst (y2 * Wd) Wd) _ dst.length ?_ hbase Wd hsrclen.symm dst rfl
        intro st x v hx' hst hv
        have hx : x < Wd := by rw [hsrclen] at hx'; exact hx'
        show (match (listExtract sst (y2 * Wd) Wd)[x]? with
          | none => none
          | some val => ToggleGrid.writeCell? ⟨⟨Wd, Hd, st⟩, false⟩ x y1 val) = _
        rw [hv]
        show ToggleGrid.writeCell? ⟨⟨Wd, Hd, st⟩, false⟩ x y1 v = _
        exact hwc false st x v hx hst
      | false =>
        rw [hdrF, hsrF]
        show List.foldlM _ (⟨⟨Wd, Hd, dst⟩, false⟩ : ToggleGrid T) (List.range Wd) = _
        refine toggle_fold_write_full Wd Hd false (y1 * Wd)
          (listExtract sst (y2 * Wd) Wd) _ dst.length ?_ hbase Wd hsrclen.symm dst rfl
        intro st x v hx' hst hv
        have hx : x < Wd := by rw [hsrclen] at hx'; exact hx'
        have hscr : ToggleGrid.get ⟨⟨Wd, Hs, sst⟩, false⟩ x y2 = some v := by
          rw [hgets false x hx, ← hsrcval x hx]
          exact hv
        show (match ToggleGrid.get ⟨⟨Wd, Hs, sst⟩, false⟩ x y2 with
          | none => none
          | some val => ToggleGrid.writeCell? ⟨⟨Wd, Hd, st⟩, false⟩ x y1 val) = _
        rw [hscr]
        show ToggleGrid.writeCell? ⟨⟨Wd, Hd, st⟩, false⟩ x y1 v = _
        exact hwc false st x v hx hst
  refine ⟨hclone, ?_, fun i hi => by rw [hmodel]; exact hget3 i hi⟩
  rw [← hcc]
  exact hclone

/-- Witness for C9: a concrete 2x2 pair exercising a mixed branch
(destination exposes a slice, source does not). -/
theorem C9_witness :
    rowCloneFrom (⟨⟨2, 2, [0, 1, 2, 3]⟩, true⟩ : ToggleGrid Nat) 0
        ⟨⟨2, 2, [10, 11, 12, 13]⟩, false⟩ 1 =
      some ⟨rowCopyModel ⟨2, 2, [0, 1, 2, 3]⟩ 0 ⟨2, 2, [10, 11, 12, 13]⟩ 1, true⟩
    ∧ (rowCopyModel (⟨2, 2, [0, 1, 2, 3]⟩ : GridBuf Nat) 0 ⟨2, 2, [10, 11, 12, 13]⟩ 1).store =
      [12, 13, 2, 3] :=
  ⟨(C9_row_clone_copy_equivalence Nat ⟨2, 2, [0, 1, 2, 3]⟩ ⟨2, 2, [10, 11, 12, 13]⟩ 0 1
      true false (by decide) (by decide) (by decide) (by decide) (by decide)).1,
    by decide⟩

end GridCrate
